import Mathlib

/-!
Verification of the superchain backend (`op-superchain/backend.go`).

The development shallowly embeds the backend's core: the peer-connection
registry lookup, the finalized-head tracker, the constructor
`NewSuperchainBackend`, and the verifier `MessageSafety`.  External
collaborators (RPC transport, batched call execution, block polling) are
represented by their observable outcomes, which are passed to the embedded
functions as explicit inputs; the operations the verifier performs against
them (the batched fetch, the tracker read) are recorded in an explicit
trace so that claims about what is and is not performed can be stated.
-/

namespace Superchain

/-- A byte string, as a list of byte values. -/
abbrev Bytes := List Nat

/-- The fields of a log entry (`types.Log`) that the verifier consults:
the emitting address, the topics, the data, and the in-block index. -/
structure Log where
  Address : Nat
  Topics : List Bytes
  Data : Bytes
  Index : Nat
deriving DecidableEq, Repr, Inhabited

/-- The field of a block header (`types.Header`) that the verifier
consults: the timestamp. -/
structure Header where
  Time : Nat
deriving DecidableEq, Repr

/-- Modelled from the spec: `MessageIdentifier` is declared outside the
given source file.  The spec lists its fields: ChainId, BlockNumber,
LogIndex, Origin, Timestamp, all unsigned integers (Origin a fixed-length
address). -/
structure MessageIdentifier where
  ChainId : Nat
  BlockNumber : Nat
  LogIndex : Nat
  Origin : Nat
  Timestamp : Nat
deriving DecidableEq, Repr

/-- Modelled from the spec: `MessageSafetyLabel` is declared outside the
given source file.  The spec requires an open enum with at least the
variants `Invalid` and `Finalized`. -/
inductive MessageSafetyLabel
  | Invalid
  | Finalized
deriving DecidableEq, Repr

/-- Modelled from the spec: `MessagePayloadBytes` is declared outside the
given source file.  The spec describes the payload as a deterministic
encoding derived from the retrieved log entry's topics and data: the
topics concatenated followed by the data. -/
def MessagePayloadBytes (log : Log) : Bytes :=
  log.Topics.flatten ++ log.Data

/-- The distinguishable errors `MessageSafety` can return, one constructor
per `fmt.Errorf` site in the source, carrying the formatted arguments. -/
inductive VerifyError
  | peerNotConfigured (chainId : Nat)
  | batchCallFailure
  | batchElemFailure
  | blockNotExist (blockNumber : Nat)
  | invalidLogIndex
  | logIndexMismatch
  | payloadMismatch
  | originMismatch
  | timestampMismatch
deriving DecidableEq, Repr

/-- Observable operations a `MessageSafety` call performs against its
collaborators: the batched RPC round trip, and the locked read of the
tracker's finalized reference. -/
inductive Op
  | batchFetch
  | trackerRead
deriving DecidableEq, Repr

/-- The outcome of the batched round trip issued by `MessageSafety`:
whether `BatchCallContext` itself failed, whether either batch element
carried an error, the decoded header (null when the block is absent), and
the decoded log list. -/
structure FetchResult where
  batchErr : Bool
  headerElemErr : Bool
  logsElemErr : Bool
  header : Option Header
  logs : List Log
deriving DecidableEq, Repr

/-- The backend state a `MessageSafety` call reads: the set of configured
peer chain ids (the keys of `l2PeerNodes`), and the timestamp of the
tracker's current finalized reference (`l2FinalizedBlockRef.Time`). -/
structure BackendState where
  peers : List Nat
  finalizedTime : Nat
deriving DecidableEq, Repr

/-- The full result of a `MessageSafety` call: the label, the error (none
for a nil Go error), and the trace of collaborator operations performed. -/
structure SafetyResult where
  label : MessageSafetyLabel
  err : Option VerifyError
  ops : List Op
deriving DecidableEq, Repr

/-- 2 to the 64: the modulus of Go's uint64 arithmetic. -/
def UINT64 : Nat := 2 ^ 64

/-- The peer-map key the verifier computes: `id.ChainId.Uint64()` keeps
the low 64 bits of the (nonnegative) big integer on a 64-bit platform. -/
def chainKey (id : MessageIdentifier) : Nat :=
  id.ChainId % UINT64

/-- The verifier (`backend.MessageSafety`), with the outcomes of the
batched fetch passed in as `fetch`.  The order of the checks and the
values returned follow the source line by line; the log list is indexed
only inside the branch where the bounds check has succeeded, so the
access carries a proof of being in range. -/
def MessageSafety (b : BackendState) (fetch : FetchResult)
    (id : MessageIdentifier) (payloadBytes : Bytes) : SafetyResult :=
  if chainKey id ∈ b.peers then
    if fetch.batchErr then ⟨.Invalid, some .batchCallFailure, [.batchFetch]⟩
    else if fetch.headerElemErr || fetch.logsElemErr then
      ⟨.Invalid, some .batchElemFailure, [.batchFetch]⟩
    else
      match fetch.header with
      | none => ⟨.Invalid, some (.blockNotExist id.BlockNumber), [.batchFetch]⟩
      | some header =>
        if hbound : fetch.logs.length ≤ id.LogIndex then
          ⟨.Invalid, some .invalidLogIndex, [.batchFetch]⟩
        else
          let log := fetch.logs.get ⟨id.LogIndex, Nat.lt_of_not_le hbound⟩
          if id.LogIndex ≠ log.Index then
            ⟨.Invalid, some .logIndexMismatch, [.batchFetch]⟩
          else if payloadBytes ≠ MessagePayloadBytes log then
            ⟨.Invalid, some .payloadMismatch, [.batchFetch]⟩
          else if id.Origin ≠ log.Address then
            ⟨.Invalid, some .originMismatch, [.batchFetch]⟩
          else if id.Timestamp ≠ header.Time then
            ⟨.Invalid, some .timestampMismatch, [.batchFetch]⟩
          else if id.Timestamp ≤ b.finalizedTime then
            ⟨.Finalized, none, [.batchFetch, .trackerRead]⟩
          else
            ⟨.Invalid, none, [.batchFetch, .trackerRead]⟩
  else
    ⟨.Invalid, some (.peerNotConfigured id.ChainId), []⟩

/-- A finalized block reference (`eth.L1BlockRef`), reduced to the fields
the spec names: height and timestamp. -/
structure L1BlockRef where
  Number : Nat
  Time : Nat
deriving DecidableEq, Repr, Inhabited

/-- The collaborator outcomes `NewSuperchainBackend` depends on: whether
the primary L2 node connection succeeds, the per-peer connection outcomes
in configuration order, whether the client wrapper constructs, and the
outcome of the initial synchronous finalized-reference fetch. -/
structure InitEnv where
  l2NodeConn : Bool
  peerConns : List (Nat × Bool)
  l2ClientOk : Bool
  finalizedFetch : Option L1BlockRef
deriving DecidableEq, Repr

/-- The state `NewSuperchainBackend` establishes on success: the
configured peer chain ids and the stored finalized reference. -/
structure BackendInit where
  peers : List Nat
  l2FinalizedBlockRef : L1BlockRef
deriving DecidableEq, Repr

/-- The peer-connection loop of `NewSuperchainBackend`: each configured
peer is connected in turn, and any failure aborts construction. -/
def connectPeers : List (Nat × Bool) → Option (List Nat)
  | [] => some []
  | (chainId, ok) :: rest =>
    if ok then (connectPeers rest).map (fun ps => chainId :: ps) else none

/-- The constructor (`NewSuperchainBackend`): connect to the primary
node, connect every configured peer, construct the client, synchronously
fetch the finalized reference, and store it; any failure returns none. -/
def NewSuperchainBackend (env : InitEnv) : Option BackendInit :=
  if env.l2NodeConn then
    match connectPeers env.peerConns with
    | none => none
    | some peers =>
      if env.l2ClientOk then
        match env.finalizedFetch with
        | none => none
        | some finalizedHeadRef => some ⟨peers, finalizedHeadRef⟩
      else none
  else none

/-- The refresh callback (`l2FinalizedHeadSignal`): under the write lock
it replaces the whole stored reference with the newly signalled one. -/
def l2FinalizedHeadSignal (_st : L1BlockRef) (sig : L1BlockRef) : L1BlockRef :=
  sig

/-- Modelled from the spec: `eth.PollBlockChanges` is declared outside the
given source file.  The spec says the polling loop invokes the callback
with each newly observed reference on a successful fetch, and on fetch
failure keeps serving the last known-good reference, surfacing nothing to
readers.  One refresh attempt therefore either applies the callback to a
fetched reference or leaves the state unchanged. -/
def refreshStep (st : L1BlockRef) (attempt : Option L1BlockRef) : L1BlockRef :=
  match attempt with
  | some sig => l2FinalizedHeadSignal st sig
  | none => st

/-- The tracker state after a sequence of refresh attempts, starting from
the initial synchronous fetch. -/
def runRefreshes (init : L1BlockRef) (attempts : List (Option L1BlockRef)) : L1BlockRef :=
  attempts.foldl refreshStep init

/-- The spec's description of what a read must return: the reference from
the most recent successful refresh, or the initial fetch when no refresh
has succeeded yet. -/
def lastSuccessful (init : L1BlockRef) (attempts : List (Option L1BlockRef)) : L1BlockRef :=
  ((attempts.filterMap id).getLast?).getD init

/-- Helper: once the chain is configured, the fetch fully succeeded and all
five integrity checks pass, the call reduces to the finality comparison. -/
theorem messageSafety_success_ctx
    (b : BackendState) (fetch : FetchResult) (id : MessageIdentifier)
    (payloadBytes : Bytes) (header : Header)
    (hpeer : chainKey id ∈ b.peers)
    (hb : fetch.batchErr = false)
    (he0 : fetch.headerElemErr = false) (he1 : fetch.logsElemErr = false)
    (hhd : fetch.header = some header)
    (hlt : id.LogIndex < fetch.logs.length)
    (hidx : id.LogIndex = (fetch.logs.get ⟨id.LogIndex, hlt⟩).Index)
    (hpay : payloadBytes = MessagePayloadBytes (fetch.logs.get ⟨id.LogIndex, hlt⟩))
    (horig : id.Origin = (fetch.logs.get ⟨id.LogIndex, hlt⟩).Address)
    (hts : id.Timestamp = header.Time) :
    MessageSafety b fetch id payloadBytes =
      if id.Timestamp ≤ b.finalizedTime then
        ⟨.Finalized, none, [.batchFetch, .trackerRead]⟩
      else
        ⟨.Invalid, none, [.batchFetch, .trackerRead]⟩ := by
  unfold MessageSafety
  rw [if_pos hpeer, hb, he0, he1, hhd]
  simp only [Bool.false_eq_true, if_false, Bool.or_self]
  rw [dif_neg (Nat.not_le.mpr hlt)]
  rw [if_neg (fun hne => hne hidx), if_neg (fun hne => hne hpay),
    if_neg (fun hne => hne horig), if_neg (fun hne => hne hts)]

/-- C1: with the chain configured, the batched fetch fully successful and
all five log-integrity checks passing (index in bounds, reported index,
payload bytes, origin address, header timestamp), an identifier timestamp
at most the tracker's current finalized timestamp yields exactly the label
`Finalized` paired with a nil error. -/
theorem messageSafety_consistent_finalized
    (b : BackendState) (fetch : FetchResult) (id : MessageIdentifier)
    (payloadBytes : Bytes) (header : Header)
    (hpeer : chainKey id ∈ b.peers)
    (hb : fetch.batchErr = false)
    (he0 : fetch.headerElemErr = false) (he1 : fetch.logsElemErr = false)
    (hhd : fetch.header = some header)
    (hlt : id.LogIndex < fetch.logs.length)
    (hidx : id.LogIndex = (fetch.logs.get ⟨id.LogIndex, hlt⟩).Index)
    (hpay : payloadBytes = MessagePayloadBytes (fetch.logs.get ⟨id.LogIndex, hlt⟩))
    (horig : id.Origin = (fetch.logs.get ⟨id.LogIndex, hlt⟩).Address)
    (hts : id.Timestamp = header.Time)
    (hfin : id.Timestamp ≤ b.finalizedTime) :
    MessageSafety b fetch id payloadBytes =
      ⟨.Finalized, none, [.batchFetch, .trackerRead]⟩ := by
  rw [messageSafety_success_ctx b fetch id payloadBytes header hpeer hb he0 he1 hhd
    hlt hidx hpay horig hts]
  exact if_pos hfin

/-- C1 witness: the spec's end-to-end scenario, finalized timestamp 1500,
consistent log at index 2, message timestamp 1000. -/
theorem messageSafety_consistent_finalized_witness :
    MessageSafety ⟨[10], 1500⟩
      ⟨false, false, false, some ⟨1000⟩, [⟨1, [], [], 0⟩, ⟨2, [], [], 1⟩, ⟨10, [], [18, 52], 2⟩]⟩
      ⟨10, 100, 2, 10, 1000⟩ [18, 52] =
      ⟨.Finalized, none, [.batchFetch, .trackerRead]⟩ :=
  messageSafety_consistent_finalized ⟨[10], 1500⟩
    ⟨false, false, false, some ⟨1000⟩, [⟨1, [], [], 0⟩, ⟨2, [], [], 1⟩, ⟨10, [], [18, 52], 2⟩]⟩
    ⟨10, 100, 2, 10, 1000⟩ [18, 52] ⟨1000⟩ (by decide) rfl rfl rfl rfl
    (by decide) (by decide) (by decide) (by decide) (by decide) (by decide)

/-- C2: with the same fully consistent context but an identifier timestamp
strictly greater than the tracker's current finalized timestamp, the result
is `Invalid` paired with a nil error: the not-yet-determined outcome. -/
theorem messageSafety_consistent_not_finalized
    (b : BackendState) (fetch : FetchResult) (id : MessageIdentifier)
    (payloadBytes : Bytes) (header : Header)
    (hpeer : chainKey id ∈ b.peers)
    (hb : fetch.batchErr = false)
    (he0 : fetch.headerElemErr = false) (he1 : fetch.logsElemErr = false)
    (hhd : fetch.header = some header)
    (hlt : id.LogIndex < fetch.logs.length)
    (hidx : id.LogIndex = (fetch.logs.get ⟨id.LogIndex, hlt⟩).Index)
    (hpay : payloadBytes = MessagePayloadBytes (fetch.logs.get ⟨id.LogIndex, hlt⟩))
    (horig : id.Origin = (fetch.logs.get ⟨id.LogIndex, hlt⟩).Address)
    (hts : id.Timestamp = header.Time)
    (hfin : b.finalizedTime < id.Timestamp) :
    MessageSafety b fetch id payloadBytes =
      ⟨.Invalid, none, [.batchFetch, .trackerRead]⟩ := by
  rw [messageSafety_success_ctx b fetch id payloadBytes header hpeer hb he0 he1 hhd
    hlt hidx hpay horig hts]
  exact if_neg (Nat.not_le.mpr hfin)

/-- C2 witness: the spec's scenario with finalized timestamp 500 and the
same consistent quadruple at message timestamp 1000. -/
theorem messageSafety_consistent_not_finalized_witness :
    MessageSafety ⟨[10], 500⟩
      ⟨false, false, false, some ⟨1000⟩, [⟨1, [], [], 0⟩, ⟨2, [], [], 1⟩, ⟨10, [], [18, 52], 2⟩]⟩
      ⟨10, 100, 2, 10, 1000⟩ [18, 52] =
      ⟨.Invalid, none, [.batchFetch, .trackerRead]⟩ :=
  messageSafety_consistent_not_finalized ⟨[10], 500⟩
    ⟨false, false, false, some ⟨1000⟩, [⟨1, [], [], 0⟩, ⟨2, [], [], 1⟩, ⟨10, [], [18, 52], 2⟩]⟩
    ⟨10, 100, 2, 10, 1000⟩ [18, 52] ⟨1000⟩ (by decide) rfl rfl rfl rfl
    (by decide) (by decide) (by decide) (by decide) (by decide) (by decide)

/-- C5: when the truncated chain id is not a configured peer, the call
returns `Invalid` with the peer-not-configured error carrying the full
chain id, for every fetch outcome and every tracker value, and the trace
is empty: no batched fetch and no tracker read is performed. -/
theorem messageSafety_peer_not_configured
    (b : BackendState) (fetch : FetchResult) (id : MessageIdentifier)
    (payloadBytes : Bytes)
    (h : chainKey id ∉ b.peers) :
    MessageSafety b fetch id payloadBytes =
      ⟨.Invalid, some (.peerNotConfigured id.ChainId), []⟩ := by
  unfold MessageSafety
  exact if_neg h

/-- C5 witness: chain id 99 against a registry holding only chain 10. -/
theorem messageSafety_peer_not_configured_witness :
    MessageSafety ⟨[10], 1500⟩ ⟨false, false, false, some ⟨1000⟩, []⟩
      ⟨99, 100, 0, 10, 1000⟩ [] =
      ⟨.Invalid, some (.peerNotConfigured 99), []⟩ :=
  messageSafety_peer_not_configured ⟨[10], 1500⟩
    ⟨false, false, false, some ⟨1000⟩, []⟩ ⟨99, 100, 0, 10, 1000⟩ [] (by decide)

/-- C4: with the chain configured and the fetch successful, a `LogIndex`
greater than or equal to the number of returned logs yields `Invalid` with
the bounds error.  In the embedding the log list is indexed only in the
branch where this check has succeeded, via a length proof, so no
out-of-range access is reachable by construction. -/
theorem messageSafety_log_index_out_of_bounds
    (b : BackendState) (fetch : FetchResult) (id : MessageIdentifier)
    (payloadBytes : Bytes) (header : Header)
    (hpeer : chainKey id ∈ b.peers)
    (hb : fetch.batchErr = false)
    (he0 : fetch.headerElemErr = false) (he1 : fetch.logsElemErr = false)
    (hhd : fetch.header = some header)
    (hge : fetch.logs.length ≤ id.LogIndex) :
    MessageSafety b fetch id payloadBytes =
      ⟨.Invalid, some .invalidLogIndex, [.batchFetch]⟩ := by
  unfold MessageSafety
  rw [if_pos hpeer, hb, he0, he1, hhd]
  simp only [Bool.false_eq_true, if_false, Bool.or_self]
  rw [dif_pos hge]

/-- C4 witness: the spec's scenario with `LogIndex` 5 against a block
carrying three logs. -/
theorem messageSafety_log_index_out_of_bounds_witness :
    MessageSafety ⟨[10], 1500⟩
      ⟨false, false, false, some ⟨1000⟩, [⟨1, [], [], 0⟩, ⟨2, [], [], 1⟩, ⟨10, [], [18, 52], 2⟩]⟩
      ⟨10, 100, 5, 10, 1000⟩ [18, 52] =
      ⟨.Invalid, some .invalidLogIndex, [.batchFetch]⟩ :=
  messageSafety_log_index_out_of_bounds ⟨[10], 1500⟩
    ⟨false, false, false, some ⟨1000⟩, [⟨1, [], [], 0⟩, ⟨2, [], [], 1⟩, ⟨10, [], [18, 52], 2⟩]⟩
    ⟨10, 100, 5, 10, 1000⟩ [18, 52] ⟨1000⟩ (by decide) rfl rfl rfl rfl (by decide)

/-- C3: with the chain configured, the fetch successful and `LogIndex` in
bounds, each of the four content mismatches — reported log index, payload
bytes, origin address, header timestamp — produces `Invalid` with its own
distinct error constructor (each independently triggerable under the
source's check order), any of them makes the label `Invalid` with a
non-nil error, and the four error values are pairwise distinct. -/
theorem messageSafety_integrity_mismatches
    (b : BackendState) (fetch : FetchResult) (id : MessageIdentifier)
    (payloadBytes : Bytes) (header : Header)
    (hpeer : chainKey id ∈ b.peers)
    (hb : fetch.batchErr = false)
    (he0 : fetch.headerElemErr = false) (he1 : fetch.logsElemErr = false)
    (hhd : fetch.header = some header)
    (hlt : id.LogIndex < fetch.logs.length) :
    (id.LogIndex ≠ (fetch.logs.get ⟨id.LogIndex, hlt⟩).Index →
      MessageSafety b fetch id payloadBytes =
        ⟨.Invalid, some .logIndexMismatch, [.batchFetch]⟩)
    ∧ (id.LogIndex = (fetch.logs.get ⟨id.LogIndex, hlt⟩).Index →
      payloadBytes ≠ MessagePayloadBytes (fetch.logs.get ⟨id.LogIndex, hlt⟩) →
      MessageSafety b fetch id payloadBytes =
        ⟨.Invalid, some .payloadMismatch, [.batchFetch]⟩)
    ∧ (id.LogIndex = (fetch.logs.get ⟨id.LogIndex, hlt⟩).Index →
      payloadBytes = MessagePayloadBytes (fetch.logs.get ⟨id.LogIndex, hlt⟩) →
      id.Origin ≠ (fetch.logs.get ⟨id.LogIndex, hlt⟩).Address →
      MessageSafety b fetch id payloadBytes =
        ⟨.Invalid, some .originMismatch, [.batchFetch]⟩)
    ∧ (id.LogIndex = (fetch.logs.get ⟨id.LogIndex, hlt⟩).Index →
      payloadBytes = MessagePayloadBytes (fetch.logs.get ⟨id.LogIndex, hlt⟩) →
      id.Origin = (fetch.logs.get ⟨id.LogIndex, hlt⟩).Address →
      id.Timestamp ≠ header.Time →
      MessageSafety b fetch id payloadBytes =
        ⟨.Invalid, some .timestampMismatch, [.batchFetch]⟩)
    ∧ ((id.LogIndex ≠ (fetch.logs.get ⟨id.LogIndex, hlt⟩).Index ∨
        payloadBytes ≠ MessagePayloadBytes (fetch.logs.get ⟨id.LogIndex, hlt⟩) ∨
        id.Origin ≠ (fetch.logs.get ⟨id.LogIndex, hlt⟩).Address ∨
        id.Timestamp ≠ header.Time) →
      (MessageSafety b fetch id payloadBytes).label = .Invalid ∧
      (MessageSafety b fetch id payloadBytes).err ≠ none)
    ∧ [VerifyError.logIndexMismatch, VerifyError.payloadMismatch,
        VerifyError.originMismatch, VerifyError.timestampMismatch].Pairwise
        (fun e1 e2 => e1 ≠ e2) := by
  have hred : ∀ r : SafetyResult,
      (if id.LogIndex ≠ (fetch.logs.get ⟨id.LogIndex, hlt⟩).Index then
        (⟨.Invalid, some .logIndexMismatch, [.batchFetch]⟩ : SafetyResult)
      else if payloadBytes ≠ MessagePayloadBytes (fetch.logs.get ⟨id.LogIndex, hlt⟩) then
        ⟨.Invalid, some .payloadMismatch, [.batchFetch]⟩
      else if id.Origin ≠ (fetch.logs.get ⟨id.LogIndex, hlt⟩).Address then
        ⟨.Invalid, some .originMismatch, [.batchFetch]⟩
      else if id.Timestamp ≠ header.Time then
        ⟨.Invalid, some .timestampMismatch, [.batchFetch]⟩
      else if id.Timestamp ≤ b.finalizedTime then
        ⟨.Finalized, none, [.batchFetch, .trackerRead]⟩
      else
        ⟨.Invalid, none, [.batchFetch, .trackerRead]⟩) = r →
      MessageSafety b fetch id payloadBytes = r := by
    intro r hr
    unfold MessageSafety
    rw [if_pos hpeer, hb, he0, he1, hhd]
    simp only [Bool.false_eq_true, if_false, Bool.or_self]
    rw [dif_neg (Nat.not_le.mpr hlt)]
    exact hr
  have p1 : id.LogIndex ≠ (fetch.logs.get ⟨id.LogIndex, hlt⟩).Index →
      MessageSafety b fetch id payloadBytes =
        ⟨.Invalid, some .logIndexMismatch, [.batchFetch]⟩ := by
    intro h1
    apply hred
    rw [if_pos h1]
  have p2 : id.LogIndex = (fetch.logs.get ⟨id.LogIndex, hlt⟩).Index →
      payloadBytes ≠ MessagePayloadBytes (fetch.logs.get ⟨id.LogIndex, hlt⟩) →
      MessageSafety b fetch id payloadBytes =
        ⟨.Invalid, some .payloadMismatch, [.batchFetch]⟩ := by
    intro h1 h2
    apply hred
    rw [if_neg (fun hne => hne h1), if_pos h2]
  have p3 : id.LogIndex = (fetch.logs.get ⟨id.LogIndex, hlt⟩).Index →
      payloadBytes = MessagePayloadBytes (fetch.logs.get ⟨id.LogIndex, hlt⟩) →
      id.Origin ≠ (fetch.logs.get ⟨id.LogIndex, hlt⟩).Address →
      MessageSafety b fetch id payloadBytes =
        ⟨.Invalid, some .originMismatch, [.batchFetch]⟩ := by
    intro h1 h2 h3
    apply hred
    rw [if_neg (fun hne => hne h1), if_neg (fun hne => hne h2), if_pos h3]
  have p4 : id.LogIndex = (fetch.logs.get ⟨id.LogIndex, hlt⟩).Index →
      payloadBytes = MessagePayloadBytes (fetch.logs.get ⟨id.LogIndex, hlt⟩) →
      id.Origin = (fetch.logs.get ⟨id.LogIndex, hlt⟩).Address →
      id.Timestamp ≠ header.Time →
      MessageSafety b fetch id payloadBytes =
        ⟨.Invalid, some .timestampMismatch, [.batchFetch]⟩ := by
    intro h1 h2 h3 h4
    apply hred
    rw [if_neg (fun hne => hne h1), if_neg (fun hne => hne h2),
      if_neg (fun hne => hne h3), if_pos h4]
  refine ⟨p1, p2, p3, p4, ?_, by decide⟩
  intro hdisj
  by_cases h1 : id.LogIndex = (fetch.logs.get ⟨id.LogIndex, hlt⟩).Index
  · by_cases h2 : payloadBytes = MessagePayloadBytes (fetch.logs.get ⟨id.LogIndex, hlt⟩)
    · by_cases h3 : id.Origin = (fetch.logs.get ⟨id.LogIndex, hlt⟩).Address
      · by_cases h4 : id.Timestamp = header.Time
        · rcases hdisj with h | h | h | h
          · exact (h h1).elim
          · exact (h h2).elim
          · exact (h h3).elim
          · exact (h h4).elim
        · rw [p4 h1 h2 h3 h4]
          exact ⟨rfl, by simp⟩
      · rw [p3 h1 h2 h3]
        exact ⟨rfl, by simp⟩
    · rw [p2 h1 h2]
      exact ⟨rfl, by simp⟩
  · rw [p1 h1]
    exact ⟨rfl, by simp⟩

/-- C3 witness: a log at position 1 that reports index 7 triggers the
log-index-mismatch error. -/
theorem messageSafety_integrity_mismatches_witness :
    MessageSafety ⟨[10], 1500⟩
      ⟨false, false, false, some ⟨1000⟩, [⟨1, [], [], 0⟩, ⟨10, [], [18, 52], 7⟩]⟩
      ⟨10, 100, 1, 10, 1000⟩ [18, 52] =
      ⟨.Invalid, some .logIndexMismatch, [.batchFetch]⟩ :=
  (messageSafety_integrity_mismatches ⟨[10], 1500⟩
    ⟨false, false, false, some ⟨1000⟩, [⟨1, [], [], 0⟩, ⟨10, [], [18, 52], 7⟩]⟩
    ⟨10, 100, 1, 10, 1000⟩ [18, 52] ⟨1000⟩ (by decide) rfl rfl rfl rfl
    (by decide)).1 (by decide)

/-- Helper: the unconfigured-chain path, stated for reuse. -/
theorem messageSafety_unconfigured_eq
    (b : BackendState) (fetch : FetchResult) (id : MessageIdentifier)
    (payloadBytes : Bytes)
    (h : chainKey id ∉ b.peers) :
    MessageSafety b fetch id payloadBytes =
      ⟨.Invalid, some (.peerNotConfigured id.ChainId), []⟩ := by
  unfold MessageSafety
  exact if_neg h

/-- Helper: the batch-call failure path. -/
theorem messageSafety_batchfail_eq
    (b : BackendState) (fetch : FetchResult) (id : MessageIdentifier)
    (payloadBytes : Bytes)
    (hpeer : chainKey id ∈ b.peers)
    (hb : fetch.batchErr = true) :
    MessageSafety b fetch id payloadBytes =
      ⟨.Invalid, some .batchCallFailure, [.batchFetch]⟩ := by
  unfold MessageSafety
  rw [if_pos hpeer, hb]
  simp

/-- Helper: the batch-element failure path. -/
theorem messageSafety_elemfail_eq
    (b : BackendState) (fetch : FetchResult) (id : MessageIdentifier)
    (payloadBytes : Bytes)
    (hpeer : chainKey id ∈ b.peers)
    (hb : fetch.batchErr = false)
    (helem : (fetch.headerElemErr || fetch.logsElemErr) = true) :
    MessageSafety b fetch id payloadBytes =
      ⟨.Invalid, some .batchElemFailure, [.batchFetch]⟩ := by
  unfold MessageSafety
  rw [if_pos hpeer, hb, helem]
  simp

/-- Helper: the missing-block path. -/
theorem messageSafety_noheader_eq
    (b : BackendState) (fetch : FetchResult) (id : MessageIdentifier)
    (payloadBytes : Bytes)
    (hpeer : chainKey id ∈ b.peers)
    (hb : fetch.batchErr = false)
    (he0 : fetch.headerElemErr = false) (he1 : fetch.logsElemErr = false)
    (hhd : fetch.header = none) :
    MessageSafety b fetch id payloadBytes =
      ⟨.Invalid, some (.blockNotExist id.BlockNumber), [.batchFetch]⟩ := by
  unfold MessageSafety
  rw [if_pos hpeer, hb, he0, he1, hhd]
  simp

/-- Helper: the out-of-bounds log index path. -/
theorem messageSafety_oob_eq
    (b : BackendState) (fetch : FetchResult) (id : MessageIdentifier)
    (payloadBytes : Bytes) (header : Header)
    (hpeer : chainKey id ∈ b.peers)
    (hb : fetch.batchErr = false)
    (he0 : fetch.headerElemErr = false) (he1 : fetch.logsElemErr = false)
    (hhd : fetch.header = some header)
    (hge : fetch.logs.length ≤ id.LogIndex) :
    MessageSafety b fetch id payloadBytes =
      ⟨.Invalid, some .invalidLogIndex, [.batchFetch]⟩ := by
  unfold MessageSafety
  rw [if_pos hpeer, hb, he0, he1, hhd]
  simp only [Bool.false_eq_true, if_false, Bool.or_self]
  rw [dif_pos hge]

/-- Helper: with a successful fetch and the log index in bounds, the call
reduces to the four content checks followed by the finality comparison. -/
theorem messageSafety_checks_eq
    (b : BackendState) (fetch : FetchResult) (id : MessageIdentifier)
    (payloadBytes : Bytes) (header : Header)
    (hpeer : chainKey id ∈ b.peers)
    (hb : fetch.batchErr = false)
    (he0 : fetch.headerElemErr = false) (he1 : fetch.logsElemErr = false)
    (hhd : fetch.header = some header)
    (hlt : id.LogIndex < fetch.logs.length) :
    MessageSafety b fetch id payloadBytes =
      if id.LogIndex ≠ (fetch.logs.get ⟨id.LogIndex, hlt⟩).Index then
        ⟨.Invalid, some .logIndexMismatch, [.batchFetch]⟩
      else if payloadBytes ≠ MessagePayloadBytes (fetch.logs.get ⟨id.LogIndex, hlt⟩) then
        ⟨.Invalid, some .payloadMismatch, [.batchFetch]⟩
      else if id.Origin ≠ (fetch.logs.get ⟨id.LogIndex, hlt⟩).Address then
        ⟨.Invalid, some .originMismatch, [.batchFetch]⟩
      else if id.Timestamp ≠ header.Time then
        ⟨.Invalid, some .timestampMismatch, [.batchFetch]⟩
      else if id.Timestamp ≤ b.finalizedTime then
        ⟨.Finalized, none, [.batchFetch, .trackerRead]⟩
      else
        ⟨.Invalid, none, [.batchFetch, .trackerRead]⟩ := by
  unfold MessageSafety
  rw [if_pos hpeer, hb, he0, he1, hhd]
  simp only [Bool.false_eq_true, if_false, Bool.or_self]
  rw [dif_neg (Nat.not_le.mpr hlt)]

/-- C6: with the chain configured, whenever the batch round trip fails, a
batch element carries an error, or the returned header is null, the call
returns `Invalid` with a non-nil error, performs no tracker read (the
trace holds only the batched fetch), and its result does not depend on
the tracker's finalized timestamp or on the returned log list. -/
theorem messageSafety_fetch_failure
    (b : BackendState) (fetch : FetchResult) (id : MessageIdentifier)
    (payloadBytes : Bytes)
    (hpeer : chainKey id ∈ b.peers)
    (hfail : fetch.batchErr = true ∨ fetch.headerElemErr = true ∨
      fetch.logsElemErr = true ∨ fetch.header = none) :
    (MessageSafety b fetch id payloadBytes).label = .Invalid
    ∧ (MessageSafety b fetch id payloadBytes).err ≠ none
    ∧ (MessageSafety b fetch id payloadBytes).ops = [.batchFetch]
    ∧ ∀ (t : Nat) (logs : List Log),
        MessageSafety ⟨b.peers, t⟩
          ⟨fetch.batchErr, fetch.headerElemErr, fetch.logsElemErr, fetch.header, logs⟩
          id payloadBytes = MessageSafety b fetch id payloadBytes := by
  cases hb : fetch.batchErr with
  | true =>
    have e := messageSafety_batchfail_eq b fetch id payloadBytes hpeer hb
    refine ⟨by rw [e], by rw [e]; simp, by rw [e], fun t logs => ?_⟩
    rw [e]
    exact messageSafety_batchfail_eq ⟨b.peers, t⟩
      ⟨true, fetch.headerElemErr, fetch.logsElemErr, fetch.header, logs⟩
      id payloadBytes hpeer rfl
  | false =>
    by_cases helem : (fetch.headerElemErr || fetch.logsElemErr) = true
    · have e := messageSafety_elemfail_eq b fetch id payloadBytes hpeer hb helem
      refine ⟨by rw [e], by rw [e]; simp, by rw [e], fun t logs => ?_⟩
      rw [e]
      exact messageSafety_elemfail_eq ⟨b.peers, t⟩
        ⟨false, fetch.headerElemErr, fetch.logsElemErr, fetch.header, logs⟩
        id payloadBytes hpeer rfl helem
    · have he0 : fetch.headerElemErr = false := by
        cases h : fetch.headerElemErr <;> simp_all
      have he1 : fetch.logsElemErr = false := by
        cases h : fetch.logsElemErr <;> simp_all
      have hhd : fetch.header = none := by
        rcases hfail with h | h | h | h
        · rw [hb] at h
          exact absurd h (by simp)
        · rw [he0] at h
          exact absurd h (by simp)
        · rw [he1] at h
          exact absurd h (by simp)
        · exact h
      have e := messageSafety_noheader_eq b fetch id payloadBytes hpeer hb he0 he1 hhd
      refine ⟨by rw [e], by rw [e]; simp, by rw [e], fun t logs => ?_⟩
      rw [e]
      exact messageSafety_noheader_eq ⟨b.peers, t⟩
        ⟨false, fetch.headerElemErr, fetch.logsElemErr, fetch.header, logs⟩
        id payloadBytes hpeer rfl he0 he1 hhd

/-- C6 witness: a batch-level failure on a configured chain. -/
theorem messageSafety_fetch_failure_witness :
    (MessageSafety ⟨[10], 1500⟩ ⟨true, false, false, some ⟨1000⟩, []⟩
      ⟨10, 100, 0, 10, 1000⟩ []).label = .Invalid
    ∧ (MessageSafety ⟨[10], 1500⟩ ⟨true, false, false, some ⟨1000⟩, []⟩
      ⟨10, 100, 0, 10, 1000⟩ []).err ≠ none
    ∧ (MessageSafety ⟨[10], 1500⟩ ⟨true, false, false, some ⟨1000⟩, []⟩
      ⟨10, 100, 0, 10, 1000⟩ []).ops = [.batchFetch]
    ∧ ∀ (t : Nat) (logs : List Log),
        MessageSafety ⟨[10], t⟩ ⟨true, false, false, some ⟨1000⟩, logs⟩
          ⟨10, 100, 0, 10, 1000⟩ [] =
        MessageSafety ⟨[10], 1500⟩ ⟨true, false, false, some ⟨1000⟩, []⟩
          ⟨10, 100, 0, 10, 1000⟩ [] :=
  messageSafety_fetch_failure ⟨[10], 1500⟩ ⟨true, false, false, some ⟨1000⟩, []⟩
    ⟨10, 100, 0, 10, 1000⟩ [] (by decide) (Or.inl rfl)

/-- Helper: on every path the result either carries the label `Invalid`
or carries a nil error. -/
theorem messageSafety_invalid_or_no_err
    (b : BackendState) (fetch : FetchResult) (id : MessageIdentifier)
    (payloadBytes : Bytes) :
    (MessageSafety b fetch id payloadBytes).label = .Invalid
    ∨ (MessageSafety b fetch id payloadBytes).err = none := by
  by_cases hpeer : chainKey id ∈ b.peers
  · cases hb : fetch.batchErr with
    | true => rw [messageSafety_batchfail_eq b fetch id payloadBytes hpeer hb]
              exact Or.inl rfl
    | false =>
      by_cases helem : (fetch.headerElemErr || fetch.logsElemErr) = true
      · rw [messageSafety_elemfail_eq b fetch id payloadBytes hpeer hb helem]
        exact Or.inl rfl
      · have he0 : fetch.headerElemErr = false := by
          cases h : fetch.headerElemErr <;> simp_all
        have he1 : fetch.logsElemErr = false := by
          cases h : fetch.logsElemErr <;> simp_all
        cases hhd : fetch.header with
        | none =>
          rw [messageSafety_noheader_eq b fetch id payloadBytes hpeer hb he0 he1 hhd]
          exact Or.inl rfl
        | some header =>
          by_cases hge : fetch.logs.length ≤ id.LogIndex
          · rw [messageSafety_oob_eq b fetch id payloadBytes header hpeer hb he0 he1 hhd hge]
            exact Or.inl rfl
          · have hlt := Nat.lt_of_not_le hge
            rw [messageSafety_checks_eq b fetch id payloadBytes header hpeer hb he0 he1 hhd hlt]
            split_ifs <;> simp
  · rw [messageSafety_unconfigured_eq b fetch id payloadBytes hpeer]
    exact Or.inl rfl

/-- C7: for every backend state, fetch outcome, identifier and payload, a
non-nil error is always paired with the label `Invalid`, and a label other
than `Invalid` is always paired with a nil error. -/
theorem messageSafety_label_error_pairing
    (b : BackendState) (fetch : FetchResult) (id : MessageIdentifier)
    (payloadBytes : Bytes) :
    ((MessageSafety b fetch id payloadBytes).err ≠ none →
      (MessageSafety b fetch id payloadBytes).label = .Invalid)
    ∧ ((MessageSafety b fetch id payloadBytes).label ≠ .Invalid →
      (MessageSafety b fetch id payloadBytes).err = none) := by
  rcases messageSafety_invalid_or_no_err b fetch id payloadBytes with h | h
  · exact ⟨fun _ => h, fun hl => (hl h).elim⟩
  · exact ⟨fun he => (he h).elim, fun _ => h⟩

/-- C10: chain resolution truncates `ChainId` to its low 64 bits: two
identifiers with congruent `ChainId` modulo 2 to the 64 resolve to the
same peer-map key, and when the truncated value is configured the call is
never rejected with the peer-not-configured error, whatever the full
`ChainId` is. -/
theorem messageSafety_chainKey_truncation
    (b : BackendState) (fetch : FetchResult) (id idB : MessageIdentifier)
    (payloadBytes : Bytes)
    (hcong : id.ChainId % UINT64 = idB.ChainId % UINT64)
    (hmem : chainKey id ∈ b.peers) :
    chainKey id = chainKey idB
    ∧ ∀ c, (MessageSafety b fetch id payloadBytes).err ≠
        some (.peerNotConfigured c) := by
  refine ⟨hcong, fun c => ?_⟩
  cases hb : fetch.batchErr with
  | true => rw [messageSafety_batchfail_eq b fetch id payloadBytes hmem hb]
            simp
  | false =>
    by_cases helem : (fetch.headerElemErr || fetch.logsElemErr) = true
    · rw [messageSafety_elemfail_eq b fetch id payloadBytes hmem hb helem]
      simp
    · have he0 : fetch.headerElemErr = false := by
        cases h : fetch.headerElemErr <;> simp_all
      have he1 : fetch.logsElemErr = false := by
        cases h : fetch.logsElemErr <;> simp_all
      cases hhd : fetch.header with
      | none =>
        rw [messageSafety_noheader_eq b fetch id payloadBytes hmem hb he0 he1 hhd]
        simp
      | some header =>
        by_cases hge : fetch.logs.length ≤ id.LogIndex
        · rw [messageSafety_oob_eq b fetch id payloadBytes header hmem hb he0 he1 hhd hge]
          simp
        · have hlt := Nat.lt_of_not_le hge
          rw [messageSafety_checks_eq b fetch id payloadBytes header hmem hb he0 he1 hhd hlt]
          split_ifs <;> simp

/-- C10 witness: chain id 2 to the 64 plus 10 resolves to the same key as
chain id 10 and is not rejected as unconfigured when chain 10 is
registered. -/
theorem messageSafety_chainKey_truncation_witness :
    chainKey ⟨2 ^ 64 + 10, 100, 0, 7, 50⟩ = chainKey ⟨10, 100, 0, 7, 50⟩
    ∧ ∀ c, (MessageSafety ⟨[10], 0⟩ ⟨true, false, false, none, []⟩
        ⟨2 ^ 64 + 10, 100, 0, 7, 50⟩ []).err ≠ some (.peerNotConfigured c) :=
  messageSafety_chainKey_truncation ⟨[10], 0⟩ ⟨true, false, false, none, []⟩
    ⟨2 ^ 64 + 10, 100, 0, 7, 50⟩ ⟨10, 100, 0, 7, 50⟩ [] (by decide) (by decide)

/-- Helper: the peer-connection loop fails exactly when some configured
peer connection fails. -/
theorem connectPeers_eq_none_iff (l : List (Nat × Bool)) :
    connectPeers l = none ↔ ∃ p ∈ l, p.2 = false := by
  induction l with
  | nil => simp [connectPeers]
  | cons hd tl ih =>
    obtain ⟨c, ok⟩ := hd
    cases ok <;> simp [connectPeers, ih]

/-- C8: the constructor returns no backend whenever some peer connection
fails to establish or the initial synchronous finalized-reference fetch
fails; and on success the stored finalized reference is exactly the value
of that initial fetch. -/
theorem newSuperchainBackend_init
    (env : InitEnv) :
    ((∃ p ∈ env.peerConns, p.2 = false) ∨ env.finalizedFetch = none →
      NewSuperchainBackend env = none)
    ∧ ∀ bk, NewSuperchainBackend env = some bk →
        env.finalizedFetch = some bk.l2FinalizedBlockRef := by
  obtain ⟨ln, pc, ck, ff⟩ := env
  constructor
  · intro h
    rcases h with h | h
    · have hcp : connectPeers pc = none := (connectPeers_eq_none_iff pc).mpr h
      unfold NewSuperchainBackend
      rw [hcp]
      cases ln <;> simp
    · unfold NewSuperchainBackend
      rw [h]
      cases ln <;> cases hcp : connectPeers pc <;> cases ck <;> simp
  · intro bk hbk
    unfold NewSuperchainBackend at hbk
    cases ln <;> cases hcp : connectPeers pc <;> cases ck <;> cases hff : ff <;>
      simp_all <;> rw [← hbk]

/-- C8 witness: a failing peer connection prevents construction, and a
fully successful environment stores the fetched reference. -/
theorem newSuperchainBackend_init_witness :
    NewSuperchainBackend ⟨true, [(10, true), (20, false)], true, some ⟨5, 900⟩⟩ = none
    ∧ (some ⟨5, 900⟩ : Option L1BlockRef) = some ⟨5, 900⟩ :=
  ⟨(newSuperchainBackend_init ⟨true, [(10, true), (20, false)], true, some ⟨5, 900⟩⟩).1
      (Or.inl (by decide)),
   (newSuperchainBackend_init ⟨true, [(10, true), (20, true)], true, some ⟨5, 900⟩⟩).2
      ⟨[10, 20], ⟨5, 900⟩⟩ (by decide)⟩

/-- Helper: prepending an element to a list shifts the default of the
optional last element. -/
theorem getLast?_getD_cons (r : L1BlockRef) (l : List L1BlockRef) (i : L1BlockRef) :
    ((r :: l).getLast?).getD i = (l.getLast?).getD r := by
  cases l with
  | nil => simp
  | cons x xs =>
    rw [List.getLast?_cons_cons]
    have hx : ∃ y, (x :: xs).getLast? = some y := by
      cases h : (x :: xs).getLast? with
      | none => exact absurd (List.getLast?_eq_none_iff.mp h) (by simp)
      | some y => exact ⟨y, rfl⟩
    obtain ⟨y, hy⟩ := hx
    rw [hy]
    rfl

/-- Helper: one refresh attempt followed by a sequence. -/
theorem lastSuccessful_cons (init : L1BlockRef) (a : Option L1BlockRef)
    (as : List (Option L1BlockRef)) :
    lastSuccessful init (a :: as) = lastSuccessful (refreshStep init a) as := by
  cases a with
  | none => simp [lastSuccessful, refreshStep, List.filterMap_cons]
  | some r =>
    simp only [lastSuccessful, refreshStep, l2FinalizedHeadSignal, List.filterMap_cons]
    exact getLast?_getD_cons r (as.filterMap id) init

/-- C9: the stored reference is replaced whole by the refresh callback and
only on a successful fetch, so after any sequence of refresh attempts the
readable reference is exactly the one from the most recent successful
refresh, or the initial fetch when none succeeded; inserting a failed
attempt anywhere leaves every subsequent read unchanged. -/
theorem tracker_serves_last_successful
    (init : L1BlockRef) (attempts more : List (Option L1BlockRef)) :
    runRefreshes init attempts = lastSuccessful init attempts
    ∧ runRefreshes init (attempts ++ none :: more) =
        runRefreshes init (attempts ++ more) := by
  constructor
  · induction attempts generalizing init with
    | nil => simp [runRefreshes, lastSuccessful]
    | cons a as ih =>
      rw [lastSuccessful_cons]
      rw [show runRefreshes init (a :: as) = runRefreshes (refreshStep init a) as from rfl]
      exact ih (refreshStep init a)
  · simp [runRefreshes, List.foldl_append]
    rfl

end Superchain
